import Mathlib

/-!
Verification of the task-lifecycle / output-streaming controller of the
`trns` Telegram bot against its natural-language specification.

The definitions below are a shallow embedding of the Python sources:
  - src/trns/bot/output_handler.py : send_text_to_telegram (chunk splitting
    and per-chunk retry delivery)
  - src/trns/bot/utils.py          : decrement_daily_capacity
  - src/trns/bot/routes.py         : the per-user task registry
    (user_processing_tasks under processing_lock), handle_video_message,
    and the notice-sending control flow of process_youtube_video.

Text is modeled as List Char (Python string indexing/slicing is by code
point).  Python exceptions are modeled with Except where propagation
matters.  Effects on the persisted metadata file are modeled by returning
the persisted state.
-/

namespace Trns

/-! ## Chunk splitting (output_handler.py, send_text_to_telegram)

Python:
  max_length = 4000
  while len(text) > max_length:
      chunk = text[:max_length]
      last_newline = chunk.rfind(chr(10))
      if last_newline > max_length * 0.7:
          chunk = text[:last_newline + 1]
          text = text[last_newline + 1:]
      else:
          text = text[max_length:]
      chunks.append(chunk)
  if text.strip():
      chunks.append(text)

Note 4000 * 0.7 evaluates to exactly 2800.0 in IEEE-754 double arithmetic,
so the integer comparison performed is last_newline > 2800. -/

/-- The hard chunk size limit, `max_length = 4000` in send_text_to_telegram. -/
def max_length : Nat := 4000

/-- ASCII whitespace as stripped by Python str.strip (the inputs modeled here
are ASCII; the Unicode spaces Python additionally strips are not used). -/
def isPySpace (c : Char) : Bool :=
  c = ' ' || c = '\t' || c = '\n' || c = '\r' || c = '\x0b' || c = '\x0c'

/-- Truthiness of `text.strip()`: the text contains a non-whitespace char. -/
def stripNonempty (t : List Char) : Bool := t.any (fun c => !isPySpace c)

/-- `chunk.rfind` of the newline character: index of the last newline in the
list, or none when absent (Python returns -1). -/
def rfindNewline : List Char → Option Nat
  | [] => none
  | c :: cs =>
    match rfindNewline cs with
    | some i => some (i + 1)
    | none => if c = '\n' then some 0 else none

/-- The while-loop of send_text_to_telegram, with explicit fuel so that the
definition is structurally recursive (each iteration removes at least one
character, so fuel = length of the text suffices; see chunkLoop below).
Returns the chunks appended by the loop and the final remainder. -/
def chunkGo : Nat → List Char → List (List Char) × List Char
  | 0, text => ([], text)
  | fuel + 1, text =>
    if max_length < text.length then
      match rfindNewline (text.take max_length) with
      | some i =>
        if 2800 < i then
          let r := chunkGo fuel (text.drop (i + 1))
          (text.take (i + 1) :: r.1, r.2)
        else
          let r := chunkGo fuel (text.drop max_length)
          (text.take max_length :: r.1, r.2)
      | none =>
        let r := chunkGo fuel (text.drop max_length)
        (text.take max_length :: r.1, r.2)
    else ([], text)

/-- The while-loop of send_text_to_telegram. -/
def chunkLoop (text : List Char) : List (List Char) × List Char :=
  chunkGo text.length text

/-- The full chunk-splitting step: the loop, then the final remainder is
appended as the last chunk unless it is empty or whitespace-only. -/
def splitChunks (text : List Char) : List (List Char) :=
  let r := chunkLoop text
  if stripNonempty r.2 then r.1 ++ [r.2] else r.1

/-- The cut point chosen by one loop iteration (mirrors the if/else on
last_newline inside the loop). -/
def firstCut (text : List Char) : Nat :=
  match rfindNewline (text.take max_length) with
  | some i => if 2800 < i then i + 1 else max_length
  | none => max_length

/-- Input for the C2 counterexample: 4000 letters followed by one space.
The loop emits the 4000-letter chunk; the remaining text is the single
space, which `if text.strip()` drops, losing a character. -/
def c2ex : List Char := List.replicate max_length 'a' ++ [' ']

/-- Spec example input: 5000 characters whose last line break within the
4000-character window sits at index 3200. -/
def c5ex1 : List Char := List.replicate 3200 'a' ++ '\n' :: List.replicate 1799 'b'

/-- Spec example input: 5000 characters whose only line break sits at
index 1000, well before 70 percent of the limit. -/
def c5ex2 : List Char := List.replicate 1000 'a' ++ '\n' :: List.replicate 3999 'b'

/-- Boundary input for C5: the last line break of the window sits at index
2800, exactly 70 percent of the limit.  The code requires the index to be
strictly greater than 2800, so it cuts at the hard limit here. -/
def c5ex3 : List Char := List.replicate 2800 'a' ++ '\n' :: List.replicate 2300 'b'

/-! ## Daily capacity governor (utils.py, decrement_daily_capacity)

Python:
  with _token_lock:
      metadata = load_metadata(metadata_path)
      today_utc = datetime.now(timezone.utc).date().isoformat()
      if "daily_capacity" not in metadata:
          metadata["daily_capacity"] = DAILY_CAPACITY
          metadata["last_capacity_date"] = today_utc
      last_date = metadata.get("last_capacity_date")
      if last_date != today_utc:
          metadata["daily_capacity"] = DAILY_CAPACITY
          metadata["last_capacity_date"] = today_utc
      capacity = metadata.get("daily_capacity", DAILY_CAPACITY)
      if capacity <= 0:
          return False
      capacity -= 1
      metadata["daily_capacity"] = capacity
      save_metadata(metadata, metadata_path)
      return capacity > 0
-/

/-- The two persisted metadata fields the governor touches; a field is none
when the corresponding key is absent from metadata.json.  The date is the
ISO string of the UTC calendar day. -/
structure Metadata where
  daily_capacity : Option Int
  last_capacity_date : Option String
deriving DecidableEq

/-- DAILY_CAPACITY = 1000 in utils.py. -/
def DAILY_CAPACITY : Int := 1000

/-- decrement_daily_capacity, as a function of today's UTC date string and
the persisted state; returns the boolean result and the persisted state
after the call (the input state unchanged when the function returns early
without calling save_metadata). -/
def decrement_daily_capacity (today_utc : String) (persisted : Metadata) :
    Bool × Metadata :=
  let metadata := persisted
  let metadata :=
    if metadata.daily_capacity.isNone then
      { daily_capacity := some DAILY_CAPACITY, last_capacity_date := some today_utc }
    else metadata
  let metadata :=
    if metadata.last_capacity_date ≠ some today_utc then
      { metadata with daily_capacity := some DAILY_CAPACITY,
                      last_capacity_date := some today_utc }
    else metadata
  let capacity := metadata.daily_capacity.getD DAILY_CAPACITY
  if capacity ≤ 0 then
    (false, persisted)
  else
    let capacity := capacity - 1
    let metadata := { metadata with daily_capacity := some capacity }
    (decide (0 < capacity), metadata)

/-- n successive decrement calls on the same UTC day, threading the
persisted state; returns the list of results in call order and the final
persisted state. -/
def decrements (today_utc : String) : Nat → Metadata → List Bool × Metadata
  | 0, m => ([], m)
  | n + 1, m =>
    let r := decrement_daily_capacity today_utc m
    let rest := decrements today_utc n r.2
    (r.1 :: rest.1, rest.2)

/-! ## Per-user task registry (routes.py)

user_processing_tasks is a dict guarded by processing_lock; each start
handler executes, inside one `with processing_lock:` block,

  if user_id in user_processing_tasks:
      ...reply processing_video...; return
  user_processing_tasks[user_id] = {"shutdown_flag": ..., "type": ...}

(handle_text_message lines 1153-1167 and 1217-1231, handle_video_message
lines 1324-1338). -/

/-- The job variant recorded in the task info ("type" field). -/
inductive TaskKind
  | youtube
  | twitter
  | file
deriving DecidableEq

/-- Outcome of one start request's registration attempt: accepted means the
handler goes on to start a worker; alreadyActive means it informs the user
that processing is already running and returns at once. -/
inductive StartOutcome
  | accepted
  | alreadyActive
deriving DecidableEq

/-- The registry user_processing_tasks as an association list from user id
to the kind of the registered entry. -/
abbrev Registry := List (Nat × TaskKind)

/-- The atomic check-and-insert executed under processing_lock by the start
handlers. -/
def check_and_register (reg : Registry) (uid : Nat) (kind : TaskKind) :
    StartOutcome × Registry :=
  if (reg.lookup uid).isSome then (StartOutcome.alreadyActive, reg)
  else (StartOutcome.accepted, (uid, kind) :: reg)

/-- A sequence of start requests for the same owner: since each request's
check-and-insert runs under the single processing_lock, any concurrent
execution is serialized into some order of these atomic steps. -/
def start_requests (uid : Nat) (reg : Registry) :
    List TaskKind → List StartOutcome × Registry
  | [] => ([], reg)
  | k :: ks =>
    let r := check_and_register reg uid k
    let rest := start_requests uid r.2 ks
    (r.1 :: rest.1, rest.2)

/-! ## handle_video_message (routes.py, lines 1284-1341) -/

/-- The replies the modeled portion of handle_video_message can send. -/
inductive VideoReply
  | notAuthenticated
  | noVideoFile
  | fileTooLarge
  | tokenWarning
  | processingVideo
  | downloadingVideo
deriving DecidableEq

/-- MAX_FILE_SIZE = 2 * 1024 * 1024 * 1024 bytes in handle_video_message. -/
def MAX_FILE_SIZE : Nat := 2 * 1024 * 1024 * 1024

/-- handle_video_message up to the point the download starts, as a function
of the authentication check, the presence of a video file, its reported
size, the token-warning check, the registry and the user id.  Returns the
replies sent in order, the registry after the handler's registration step,
and whether the handler proceeds to download the file. -/
def handle_video_message (authed hasVideo : Bool) (file_size : Nat)
    (warn : Bool) (reg : Registry) (uid : Nat) :
    List VideoReply × Registry × Bool :=
  if !authed then ([VideoReply.notAuthenticated], reg, false)
  else if !hasVideo then ([VideoReply.noVideoFile], reg, false)
  else if MAX_FILE_SIZE < file_size then ([VideoReply.fileTooLarge], reg, false)
  else
    let warns := if warn then [VideoReply.tokenWarning] else []
    let r := check_and_register reg uid TaskKind.file
    match r.1 with
    | StartOutcome.alreadyActive => (warns ++ [VideoReply.processingVideo], reg, false)
    | StartOutcome.accepted => (warns ++ [VideoReply.downloadingVideo], r.2, true)

/-! ## Final notices of process_youtube_video (routes.py, lines 394-466)

The body awaits the worker inside an inner try whose `except Exception`
sends the error notice and falls through; control then reaches
`if not shutdown_flag.is_set(): send processing_complete`.  The outer
`except asyncio.CancelledError` sends the cancellation notice and the
outer `except Exception` sends the error notice.  Notice sends that
themselves fail are swallowed.  reset_context() at line 443 runs inside
the outer try after the completion check and performs config-file I/O
(load_config/save_config), which raises on a missing or corrupt
config.json: its exception reaches the outer except Exception, which
sends an error notice after whatever was already sent.  The reset_context
calls placed at the end of the two outer except handlers (lines 452 and
461) can also raise, but from there the exception propagates out of the
function without any further notice, so they do not appear in the notice
trace. -/

/-- How one job's main body ends. -/
inductive JobEvent
  | setupFailure
  | workerSuccess
  | workerError
  | workerCancelled
  | orchestratorCancelled
deriving DecidableEq, Fintype

/-- The three terminal user notices. -/
inductive Notice
  | completion
  | cancellation
  | errorNotice
deriving DecidableEq, Fintype

/-- The notices process_youtube_video sends to the caller, in order, as a
function of how the body ends, whether the shutdown flag is set when
control reaches the completion check, and whether the reset_context() call
at line 443 raises.  On the three paths that reach line 443 (worker
success, worker exception swallowed by the inner handler, cancellation
swallowed at the await), a reset_context failure escapes to the outer
except Exception, which appends an error notice; on the setup-failure and
orchestrator-cancellation paths reset_context runs only inside the outer
handlers, where a failure propagates without a further notice. -/
def process_youtube_video_notices (e : JobEvent) (shutdown_set reset_fails : Bool) :
    List Notice :=
  match e with
  | JobEvent.setupFailure => [Notice.errorNotice]
  | JobEvent.orchestratorCancelled => [Notice.cancellation]
  | JobEvent.workerError =>
    Notice.errorNotice ::
      ((if shutdown_set then [] else [Notice.completion])
        ++ (if reset_fails then [Notice.errorNotice] else []))
  | JobEvent.workerSuccess =>
    (if shutdown_set then [] else [Notice.completion])
      ++ (if reset_fails then [Notice.errorNotice] else [])
  | JobEvent.workerCancelled =>
    (if shutdown_set then [] else [Notice.completion])
      ++ (if reset_fails then [Notice.errorNotice] else [])

/-! ## Chunk delivery with retries (output_handler.py, lines 127-160) -/

/-- max_retries default of send_text_to_telegram. -/
def max_retries : Nat := 3

/-- One attempt of client.send_message under asyncio.wait_for: the oracle
says whether the attempt succeeds; a failure (including a timeout) is an
exception. -/
def attemptSend (ok : Bool) : Except String Unit :=
  if ok then Except.ok () else Except.error "SendFailure"

/-- One row of a chunk's retry trace: the attempt number, whether the
attempt succeeded, and the backoff wait performed after it (none when the
attempt succeeded or was the final one). -/
structure AttemptRec where
  attempt : Nat
  ok : Bool
  wait : Option ℚ
deriving DecidableEq

/-- The per-chunk retry loop `for attempt in range(max_retries)`: on success
break; on an exception wait 0.5 * 2 ** attempt and retry, unless this was
the final attempt, in which case log and fall through — the exception is
swallowed either way, never re-raised.  fuel counts the attempts still
allowed. -/
def retry_loop (ok : Nat → Bool) : Nat → Nat → List AttemptRec
  | _, 0 => []
  | attempt, fuel + 1 =>
    match attemptSend (ok attempt) with
    | Except.ok _ => [⟨attempt, true, none⟩]
    | Except.error _ =>
      if fuel = 0 then [⟨attempt, false, none⟩]
      else ⟨attempt, false, some ((1 / 2 : ℚ) * 2 ^ attempt)⟩ ::
        retry_loop ok (attempt + 1) fuel

/-- The sending phase `for i, chunk in enumerate(chunks)`: skip empty or
whitespace-only chunks, run the retry loop for each other chunk; ok i a
tells whether attempt a of chunk i succeeds.  Returns the trace of
(chunk index, attempts). -/
def send_chunks (ok : Nat → Nat → Bool) (chunks : List (List Char)) :
    List (Nat × List AttemptRec) :=
  (chunks.enum.filter (fun p => stripNonempty p.2)).map
    (fun p => (p.1, retry_loop (ok p.1) 0 max_retries))

/-- send_text_to_telegram: returns at once on empty or whitespace-only text
or a None client; otherwise splits the text into chunks and sends each with
retries.  The Except layer records where an uncaught exception would
surface; every send exception is caught inside retry_loop, so the function
always returns ok with the trace of attempts. -/
def send_text_to_telegram (client : Option Unit) (ok : Nat → Nat → Bool)
    (text : List Char) : Except String (List (Nat × List AttemptRec)) :=
  if text.isEmpty || !stripNonempty text then Except.ok []
  else if client.isNone then Except.ok []
  else Except.ok (send_chunks ok (splitChunks text))

/-! ### Basic lemmas about rfindNewline -/

theorem rfindNewline_lt_length {l : List Char} {i : Nat}
    (h : rfindNewline l = some i) : i < l.length := by
  induction l generalizing i with
  | nil => simp [rfindNewline] at h
  | cons c cs ih =>
    simp only [rfindNewline] at h
    cases hcs : rfindNewline cs with
    | some j =>
      rw [hcs] at h
      injection h with h
      subst h
      have h2 := ih hcs
      simp only [List.length_cons]
      omega
    | none =>
      rw [hcs] at h
      by_cases hc : c = '\n'
      · rw [if_pos hc] at h
        injection h with h
        subst h
        simp
      · simp [hc] at h

theorem rfindNewline_getElem {l : List Char} {i : Nat}
    (h : rfindNewline l = some i) : l[i]? = some '\n' := by
  induction l generalizing i with
  | nil => simp [rfindNewline] at h
  | cons c cs ih =>
    simp only [rfindNewline] at h
    cases hcs : rfindNewline cs with
    | some j =>
      rw [hcs] at h
      cases h
      simpa using ih hcs
    | none =>
      rw [hcs] at h
      by_cases hc : c = '\n'
      · simp [hc] at h
        subst h
        simp [hc]
      · simp [hc] at h

theorem rfindNewline_append (l r : List Char) :
    rfindNewline (l ++ r) =
      match rfindNewline r with
      | some j => some (l.length + j)
      | none => rfindNewline l := by
  induction l with
  | nil => cases h : rfindNewline r <;> simp [rfindNewline, h]
  | cons c cs ih =>
    cases h : rfindNewline r with
    | some j =>
      have h3 : rfindNewline (cs ++ r) = some (cs.length + j) := by rw [ih, h]
      simp [rfindNewline, h3, h]
      omega
    | none =>
      have h3 : rfindNewline (cs ++ r) = rfindNewline cs := by rw [ih, h]
      cases h2 : rfindNewline cs with
      | some j => simp [rfindNewline, h3, h2, h]
      | none => simp [rfindNewline, h3, h2, h]

theorem rfindNewline_replicate {c : Char} (h : c ≠ '\n') (n : Nat) :
    rfindNewline (List.replicate n c) = none := by
  induction n with
  | zero => rfl
  | succ m ih => simp [List.replicate_succ, rfindNewline, ih, h]

/-! ### The loop invariants behind the chunking claims -/

/-- Concatenating the loop's chunks and its remainder gives back the input:
nothing is dropped, duplicated or reordered by the loop itself. -/
theorem chunkGo_join (fuel : Nat) (text : List Char) :
    (chunkGo fuel text).1.flatten ++ (chunkGo fuel text).2 = text := by
  induction fuel generalizing text with
  | zero => simp [chunkGo]
  | succ m ih =>
    simp only [chunkGo]
    split
    · split
      · split
        · simp [List.append_assoc, ih]
        · simp [List.append_assoc, ih]
      · simp [List.append_assoc, ih]
    · simp

/-- Every chunk produced by the loop has length at most max_length. -/
theorem chunkGo_chunk_le (fuel : Nat) (text : List Char) :
    ∀ c ∈ (chunkGo fuel text).1, c.length ≤ max_length := by
  induction fuel generalizing text with
  | zero => simp [chunkGo]
  | succ m ih =>
    simp only [chunkGo]
    split
    · rename_i hlen
      split
      · rename_i i hfind
        split
        · intro c hc
          rcases List.mem_cons.1 hc with rfl | hc
          · have hi : i < (text.take max_length).length :=
              rfindNewline_lt_length hfind
            simp at hi ⊢
            omega
          · exact ih _ c hc
        · intro c hc
          rcases List.mem_cons.1 hc with rfl | hc
          · simp
          · exact ih _ c hc
      · intro c hc
        rcases List.mem_cons.1 hc with rfl | hc
        · simp
        · exact ih _ c hc
    · simp

/-- With fuel at least the length of the text, the loop's final remainder
fits within max_length (the loop only stops once the text fits). -/
theorem chunkGo_rem_le (fuel : Nat) (text : List Char)
    (h : text.length ≤ fuel) : (chunkGo fuel text).2.length ≤ max_length := by
  induction fuel generalizing text with
  | zero =>
    simp [chunkGo]
    omega
  | succ m ih =>
    simp only [chunkGo]
    split
    · rename_i hlen
      split
      · rename_i i hfind
        split
        · exact ih _ (by simp; omega)
        · exact ih _ (by simp [max_length] at hlen ⊢; omega)
      · exact ih _ (by simp [max_length] at hlen ⊢; omega)
    · rename_i hlen
      simpa using Nat.le_of_not_lt hlen

/-! ### Unfolding lemmas for single loop iterations -/

theorem chunkGo_base (fuel : Nat) (text : List Char)
    (hlen : ¬ max_length < text.length) : chunkGo fuel text = ([], text) := by
  cases fuel <;> simp [chunkGo, hlen]

theorem chunkGo_step_high (fuel : Nat) (text : List Char) (i : Nat)
    (hlen : max_length < text.length)
    (hfind : rfindNewline (text.take max_length) = some i) (hi : 2800 < i) :
    chunkGo (fuel + 1) text =
      (text.take (i + 1) :: (chunkGo fuel (text.drop (i + 1))).1,
       (chunkGo fuel (text.drop (i + 1))).2) := by
  simp [chunkGo, hlen, hfind, hi]

theorem chunkGo_step_low (fuel : Nat) (text : List Char) (i : Nat)
    (hlen : max_length < text.length)
    (hfind : rfindNewline (text.take max_length) = some i) (hi : ¬ 2800 < i) :
    chunkGo (fuel + 1) text =
      (text.take max_length :: (chunkGo fuel (text.drop max_length)).1,
       (chunkGo fuel (text.drop max_length)).2) := by
  simp [chunkGo, hlen, hfind, hi]

theorem chunkGo_step_none (fuel : Nat) (text : List Char)
    (hlen : max_length < text.length)
    (hfind : rfindNewline (text.take max_length) = none) :
    chunkGo (fuel + 1) text =
      (text.take max_length :: (chunkGo fuel (text.drop max_length)).1,
       (chunkGo fuel (text.drop max_length)).2) := by
  simp [chunkGo, hlen, hfind]

theorem stripNonempty_eq_false {t : List Char} :
    stripNonempty t = false ↔ t.all isPySpace = true := by
  simp [stripNonempty, List.any_eq_false, List.all_eq_true]

/-- When the text exceeds the limit, the loop runs at least once and the
first chunk it emits is the firstCut-length head of the text. -/
theorem chunkLoop_head (text : List Char) (h : max_length < text.length) :
    ∃ rest rem, chunkLoop text = (text.take (firstCut text) :: rest, rem) := by
  unfold chunkLoop
  obtain ⟨m, hm⟩ : ∃ m, text.length = m + 1 := ⟨text.length - 1, by omega⟩
  rw [hm]
  cases hfind : rfindNewline (text.take max_length) with
  | some i =>
    by_cases hi : 2800 < i
    · rw [chunkGo_step_high m text i h hfind hi]
      refine ⟨(chunkGo m (text.drop (i + 1))).1, (chunkGo m (text.drop (i + 1))).2, ?_⟩
      simp [firstCut, hfind, hi]
    · rw [chunkGo_step_low m text i h hfind hi]
      refine ⟨(chunkGo m (text.drop max_length)).1, (chunkGo m (text.drop max_length)).2, ?_⟩
      simp [firstCut, hfind, hi]
  | none =>
    rw [chunkGo_step_none m text h hfind]
    refine ⟨(chunkGo m (text.drop max_length)).1, (chunkGo m (text.drop max_length)).2, ?_⟩
    simp [firstCut, hfind]

theorem splitChunks_head (text : List Char) (h : max_length < text.length) :
    (splitChunks text).head? = some (text.take (firstCut text)) := by
  obtain ⟨rest, rem, he⟩ := chunkLoop_head text h
  by_cases hs : stripNonempty rem <;> simp [splitChunks, he, hs]

/-- C2 (amended claim): concatenating, in order, all chunks produced by the
chunk-splitting step of send_text_to_telegram reproduces the original text
up to a dropped whitespace-only final remainder (the remainder is appended
as the last chunk only when it contains a non-whitespace character), and no
produced chunk is longer than the configured size limit of 4000
characters. -/
theorem chunking_round_trip_mod_whitespace (text : List Char) :
    (∃ w, (splitChunks text).flatten ++ w = text ∧ w.all isPySpace = true)
    ∧ (splitChunks text).all (fun c => c.length ≤ max_length) = true := by
  have hjoin := chunkGo_join text.length text
  constructor
  · by_cases h : stripNonempty (chunkLoop text).2
    · refine ⟨[], ?_, by simp⟩
      simp only [splitChunks]
      rw [if_pos h]
      simpa [chunkLoop] using hjoin
    · refine ⟨(chunkLoop text).2, ?_, stripNonempty_eq_false.1 (by simpa using h)⟩
      simp only [splitChunks]
      rw [if_neg h]
      simpa [chunkLoop] using hjoin
  · rw [List.all_eq_true]
    intro c hc
    simp only [decide_eq_true_eq]
    simp only [splitChunks] at hc
    by_cases h : stripNonempty (chunkLoop text).2
    · rw [if_pos h] at hc
      simp only [chunkLoop] at hc
      simp at hc
      rcases hc with hc | hc
      · exact chunkGo_chunk_le text.length text c hc
      · subst hc
        exact chunkGo_rem_le text.length text (le_refl _)
    · rw [if_neg h] at hc
      simp only [chunkLoop] at hc
      exact chunkGo_chunk_le text.length text c hc

/-- C2 counterexample: for the 4001-character input made of 4000 letters
followed by one space, the concatenation of the produced chunks is the
4000 letters alone; the trailing space was dropped, so the round trip as
claimed fails. -/
theorem chunking_round_trip_counterexample :
    ¬ ((splitChunks c2ex).flatten = c2ex) := by
  have hlen : c2ex.length = max_length + 1 := by simp [c2ex]
  have htake : c2ex.take max_length = List.replicate max_length 'a' := by
    simp [c2ex, List.take_append_eq_append_take]
  have hdrop : c2ex.drop max_length = [' '] := by
    simp [c2ex, List.drop_append_eq_append_drop]
  have hloop : chunkLoop c2ex = ([List.replicate max_length 'a'], [' ']) := by
    unfold chunkLoop
    rw [hlen]
    rw [chunkGo_step_none max_length c2ex (by omega)
      (by rw [htake]; exact rfindNewline_replicate (by decide) _)]
    rw [hdrop, chunkGo_base _ _ (by simp [max_length]), htake]
  have hsplit : splitChunks c2ex = [List.replicate max_length 'a'] := by
    simp [splitChunks, hloop]
    decide
  intro h
  rw [hsplit] at h
  have h1 : (List.replicate max_length 'a').length = c2ex.length := by
    simpa using congrArg List.length h
  rw [hlen] at h1
  simp at h1

/-! ### The spec's chunk-boundary examples -/

/-- Computing the 4000-character window of an input consisting of letters, a
single newline at index n, then more letters past the window. -/
theorem take_window (n m : Nat) (hn : n < max_length) (hm : max_length ≤ n + 1 + m) :
    (List.replicate n 'a' ++ '\n' :: List.replicate m 'b').take max_length
      = List.replicate n 'a' ++ '\n' :: List.replicate (max_length - n - 1) 'b' := by
  rw [List.take_append_eq_append_take]
  have h2 : (List.replicate n 'a').take max_length = List.replicate n 'a' :=
    List.take_of_length_le (by simp; omega)
  have h3 : max_length - (List.replicate n 'a').length = (max_length - n - 1) + 1 := by
    simp
    omega
  rw [h2, h3, List.take_succ_cons, List.take_replicate]
  have h4 : min (max_length - n - 1) m = max_length - n - 1 := by omega
  rw [h4]

/-- In such a window the last newline is the one at index n. -/
theorem window_rfind (n m : Nat) (hn : n < max_length) (hm : max_length ≤ n + 1 + m) :
    rfindNewline ((List.replicate n 'a' ++ '\n' :: List.replicate m 'b').take max_length)
      = some n := by
  rw [take_window n m hn hm, rfindNewline_append]
  have hb : rfindNewline (List.replicate (max_length - n - 1) 'b') = none :=
    rfindNewline_replicate (by decide) _
  simp [rfindNewline, hb]

/-- C5 (amended claim): when the remaining text exceeds the limit, the cut
point of the first chunk is chosen as follows: if the last line break of the
limit-length window lies strictly after 70 percent of the limit (index
greater than 2800 = 4000 * 0.7), the chunk ends at that line break (its last
character is the newline); otherwise — no line break, or line break at index
at most 2800 — the chunk has exactly the hard-limit length of 4000
characters.  The spec's two concrete examples (line break at 3200, line
break at 1000) behave as stated; the witness instantiates them. -/
theorem first_chunk_cut_rule (text : List Char) (hlen : max_length < text.length) :
    (splitChunks text).head? = some (text.take (firstCut text))
    ∧ (∀ i, rfindNewline (text.take max_length) = some i → 2800 < i →
        firstCut text = i + 1
        ∧ (text.take (i + 1)).length = i + 1
        ∧ (text.take (i + 1)).getLast? = some '\n')
    ∧ (∀ i, rfindNewline (text.take max_length) = some i → ¬ 2800 < i →
        firstCut text = max_length ∧ (text.take max_length).length = max_length)
    ∧ (rfindNewline (text.take max_length) = none →
        firstCut text = max_length ∧ (text.take max_length).length = max_length) := by
  refine ⟨splitChunks_head text hlen, ?_, ?_, ?_⟩
  · intro i hf hi
    have hilt : i < (text.take max_length).length := rfindNewline_lt_length hf
    have hi4 : i < max_length := by
      simp [List.length_take] at hilt
      omega
    have hlen1 : (text.take (i + 1)).length = i + 1 := by
      simp [List.length_take]
      omega
    refine ⟨by simp [firstCut, hf, hi], hlen1, ?_⟩
    have hnl : text[i]? = some '\n' := by
      rw [← List.getElem?_take_of_lt (show i < max_length by omega)]
      exact rfindNewline_getElem hf
    rw [List.getLast?_eq_getElem?, hlen1]
    simpa [List.getElem?_take_of_lt (show i < i + 1 by omega)] using hnl
  · intro i hf hi
    refine ⟨by simp [firstCut, hf, hi], ?_⟩
    simp [List.length_take]
    omega
  · intro hf
    refine ⟨by simp [firstCut, hf], ?_⟩
    simp [List.length_take]
    omega

/-- Witness for first_chunk_cut_rule: the spec's two examples.  For the
5000-character input whose last window line break sits at 3200 (which is
greater than 2800) the first chunk is the prefix of length 3201 ending in
the newline; for the 5000-character input whose only line break sits at
1000 the first chunk is the 4000-character hard-limit window. -/
theorem first_chunk_cut_rule_witness :
    ((splitChunks c5ex1).head? = some (c5ex1.take 3201)
      ∧ (c5ex1.take 3201).getLast? = some '\n'
      ∧ (c5ex1.take 3201).length = 3201)
    ∧ ((splitChunks c5ex2).head? = some (c5ex2.take max_length)
      ∧ (c5ex2.take max_length).length = max_length) := by
  have hl1 : max_length < c5ex1.length := by
    simp only [c5ex1, List.length_append, List.length_cons, List.length_replicate, max_length]
    omega
  have hr1 : rfindNewline (c5ex1.take max_length) = some 3200 :=
    window_rfind 3200 1799 (by decide) (by decide)
  have h1 := first_chunk_cut_rule c5ex1 hl1
  have hc1 := h1.2.1 3200 hr1 (by omega)
  have hl2 : max_length < c5ex2.length := by
    simp only [c5ex2, List.length_append, List.length_cons, List.length_replicate, max_length]
    omega
  have hr2 : rfindNewline (c5ex2.take max_length) = some 1000 :=
    window_rfind 1000 3999 (by decide) (by decide)
  have h2 := first_chunk_cut_rule c5ex2 hl2
  have hc2 := h2.2.2.1 1000 hr2 (by omega)
  refine ⟨⟨?_, hc1.2.2, hc1.2.1⟩, ⟨?_, hc2.2⟩⟩
  · rw [h1.1, hc1.1]
  · rw [h2.1, hc2.1]

/-- C5 counterexample: an input whose last window line break sits at index
2800, which is exactly 70 percent of the limit.  The claim says the chunk
then ends at that line break (prefix of length 2801); the code's comparison
is strict, so it actually cuts at the hard limit of 4000 characters. -/
theorem first_chunk_cut_rule_counterexample :
    rfindNewline (c5ex3.take max_length) = some 2800
    ∧ 2800 = max_length * 7 / 10
    ∧ ¬ ((splitChunks c5ex3).head? = some (c5ex3.take (2800 + 1))) := by
  have hl : max_length < c5ex3.length := by
    simp only [c5ex3, List.length_append, List.length_cons, List.length_replicate, max_length]
    omega
  have hr : rfindNewline (c5ex3.take max_length) = some 2800 :=
    window_rfind 2800 2300 (by decide) (by decide)
  refine ⟨hr, by decide, ?_⟩
  have hhead := splitChunks_head c5ex3 hl
  have hfc : firstCut c5ex3 = max_length := by simp [firstCut, hr]
  rw [hfc] at hhead
  intro hcontra
  rw [hhead] at hcontra
  injection hcontra with hcontra
  have h1 := congrArg List.length hcontra
  simp only [List.length_take, c5ex3, List.length_append, List.length_cons,
    List.length_replicate, max_length] at h1
  omega

/-! ### Capacity governor theorems -/

theorem decrement_same_day_zero (today : String) :
    decrement_daily_capacity today ⟨some 0, some today⟩
      = (false, ⟨some 0, some today⟩) := by
  simp [decrement_daily_capacity]

theorem decrement_same_day_one (today : String) :
    decrement_daily_capacity today ⟨some 1, some today⟩
      = (false, ⟨some 0, some today⟩) := by
  norm_num [decrement_daily_capacity]

theorem decrements_zero_stays (today : String) (n : Nat) :
    decrements today n ⟨some 0, some today⟩
      = (List.replicate n false, ⟨some 0, some today⟩) := by
  induction n with
  | zero => simp [decrements]
  | succ k ih =>
    simp [decrements, decrement_same_day_zero, ih]
    rw [List.replicate_succ]

/-- C3 (amended claim): starting from a persisted counter with remaining = 1
and day = today, every repeated decrement call returns has_capacity = false
— including the very first call, which consumes the last unit and persists
remaining = 0 but reports false because the result is computed after the
decrement (return capacity > 0); all subsequent same-day calls leave the
counter at 0 and also return false, until the UTC day rolls over. -/
theorem capacity_exhaustion_from_one (today : String) (n : Nat) :
    (decrements today n ⟨some 1, some today⟩).1 = List.replicate n false := by
  cases n with
  | zero => simp [decrements]
  | succ k =>
    simp [decrements, decrement_same_day_one, decrements_zero_stays]
    rw [List.replicate_succ]

/-- C3 counterexample: from {remaining: 1, day: today}, five repeated
same-day decrement calls never return true — the claimed single true result
(on the call that lands remaining at 0) does not occur; that call already
returns false. -/
theorem capacity_exhaustion_counterexample :
    (decrements "2025-06-01" 5 ⟨some 1, some "2025-06-01"⟩).1.count true ≠ 1 := by
  decide

/-- C6 (claim as stated): with remaining = 3 stored under a day different
from today, the next decrement call returns has_capacity = true and the
persisted state becomes {remaining: 999, day: today}: the counter is first
reset to the fixed capacity 1000 and stamped with today, then decremented
once — not decremented from 3 to 2. -/
theorem capacity_reset_on_new_day (today : String) (m : Metadata)
    (h3 : m.daily_capacity = some 3) (hd : m.last_capacity_date ≠ some today) :
    decrement_daily_capacity today m = (true, ⟨some 999, some today⟩) := by
  obtain ⟨dc, ld⟩ := m
  simp only at h3 hd
  subst h3
  norm_num [decrement_daily_capacity, hd, DAILY_CAPACITY]

/-- Witness for capacity_reset_on_new_day at the spec's state
{remaining: 3, day: yesterday}. -/
theorem capacity_reset_on_new_day_witness :
    (⟨some 3, some "2025-05-31"⟩ : Metadata).daily_capacity = some 3
    ∧ (⟨some 3, some "2025-05-31"⟩ : Metadata).last_capacity_date ≠ some "2025-06-01"
    ∧ decrement_daily_capacity "2025-06-01" ⟨some 3, some "2025-05-31"⟩
        = (true, ⟨some 999, some "2025-06-01"⟩) :=
  ⟨rfl, by decide,
    capacity_reset_on_new_day "2025-06-01" ⟨some 3, some "2025-05-31"⟩ rfl (by decide)⟩

/-- C7 (amended claim): the persisted remaining counter never becomes
negative — a nonnegative (or absent) stored remaining is nonnegative after
any decrement call; and whenever the stored day is today, a call with
remaining ≤ 0 returns false and leaves the persisted counter unchanged (the
early return skips save_metadata).  When the stored day is not today the
counter is instead reset to 1000 and decremented to 999, still
nonnegative. -/
theorem remaining_never_negative (today : String) (m : Metadata) (c : Int) :
    (m.daily_capacity = some c → c ≤ 0 → m.last_capacity_date = some today →
      decrement_daily_capacity today m = (false, m))
    ∧ (0 ≤ m.daily_capacity.getD 0 →
      0 ≤ (decrement_daily_capacity today m).2.daily_capacity.getD 0) := by
  obtain ⟨dc, ld⟩ := m
  constructor
  · intro h1 h2 h3
    simp only at h1 h3
    subst h1
    subst h3
    simp [decrement_daily_capacity, h2]
  · intro h0
    cases dc with
    | none => norm_num [decrement_daily_capacity, DAILY_CAPACITY]
    | some c2 =>
      simp only [Option.getD_some] at h0
      by_cases hld : ld = some today
      · subst hld
        by_cases hc : c2 ≤ 0
        · simp [decrement_daily_capacity, hc]
          omega
        · simp [decrement_daily_capacity, hc]
          omega
      · simp [decrement_daily_capacity, hld, DAILY_CAPACITY]

/-- Witness for remaining_never_negative at the exhausted same-day state
{remaining: 0, day: today}. -/
theorem remaining_never_negative_witness :
    decrement_daily_capacity "2025-06-01" ⟨some 0, some "2025-06-01"⟩
      = (false, ⟨some 0, some "2025-06-01"⟩)
    ∧ 0 ≤ (decrement_daily_capacity "2025-06-01"
        ⟨some 0, some "2025-06-01"⟩).2.daily_capacity.getD 0 :=
  ⟨(remaining_never_negative "2025-06-01" ⟨some 0, some "2025-06-01"⟩ 0).1
      rfl (by decide) rfl,
   (remaining_never_negative "2025-06-01" ⟨some 0, some "2025-06-01"⟩ 0).2
      (by decide)⟩

/-- C7 counterexample: with remaining = 0 but a stale stored day, the
decrement call neither returns false nor leaves the counter unchanged: the
day rollover resets the counter to 1000, decrements it to 999, persists
that, and returns true. -/
theorem remaining_never_negative_counterexample :
    ¬ ((decrement_daily_capacity "2025-06-01" ⟨some 0, some "2025-05-31"⟩).1 = false
       ∧ (decrement_daily_capacity "2025-06-01" ⟨some 0, some "2025-05-31"⟩).2
          = ⟨some 0, some "2025-05-31"⟩) := by
  decide

/-! ### Registry theorems -/

theorem lookup_cons_self (reg : Registry) (uid : Nat) (k : TaskKind) :
    (((uid, k) :: reg).lookup uid).isSome := by
  simp [List.lookup]

theorem start_requests_when_active (uid : Nat) (reg : Registry)
    (ks : List TaskKind) (h : (reg.lookup uid).isSome) :
    start_requests uid reg ks
      = (List.replicate ks.length StartOutcome.alreadyActive, reg) := by
  induction ks with
  | nil => simp [start_requests]
  | cons k ks ih =>
    simp [start_requests, check_and_register, h, ih]
    rw [List.replicate_succ]

theorem countP_eq_zero_of_lookup_none (reg : Registry) (uid : Nat)
    (h : reg.lookup uid = none) :
    reg.countP (fun p => p.1 == uid) = 0 := by
  induction reg with
  | nil => simp
  | cons p ps ih =>
    obtain ⟨a, b⟩ := p
    rw [List.lookup] at h
    by_cases hab : uid = a
    · subst hab
      simp at h
    · have hba : (uid == a) = false := by simp [hab]
      simp only [hba] at h
      have hne : (a == uid) = false := by simp [Ne.symm hab]
      simp [List.countP_cons, hne, ih h]

/-- C1 (claim): for every owner id, at most one processing task is
registered at a time: when several start requests for the same owner run
concurrently — serialized by the single processing_lock into any order of
atomic check-and-insert steps — exactly the first acquires the registry
entry, every other observes the existing entry and reports that processing
is already active (hence starts no worker), and the resulting registry
holds exactly one entry for that owner. -/
theorem single_registration_per_owner (uid : Nat) (reg : Registry)
    (ks : List TaskKind) (hfree : reg.lookup uid = none) (hne : ks ≠ []) :
    (start_requests uid reg ks).1
        = StartOutcome.accepted
            :: List.replicate (ks.length - 1) StartOutcome.alreadyActive
    ∧ (start_requests uid reg ks).1.count StartOutcome.accepted = 1
    ∧ (start_requests uid reg ks).2.countP (fun p => p.1 == uid) = 1 := by
  obtain ⟨k, ks2, rfl⟩ := List.exists_cons_of_ne_nil hne
  have hreg : check_and_register reg uid k
      = (StartOutcome.accepted, (uid, k) :: reg) := by
    simp [check_and_register, hfree]
  have hact := start_requests_when_active uid ((uid, k) :: reg) ks2
    (lookup_cons_self reg uid k)
  have houts : start_requests uid reg (k :: ks2)
      = (StartOutcome.accepted
          :: List.replicate ks2.length StartOutcome.alreadyActive,
        (uid, k) :: reg) := by
    simp [start_requests, hreg, hact]
  refine ⟨by simp [houts], ?_, ?_⟩
  · rw [houts]
    simp [List.count_cons, List.count_replicate]
  · rw [houts]
    simp [List.countP_cons, countP_eq_zero_of_lookup_none reg uid hfree]

/-- Witness for single_registration_per_owner: two concurrent YouTube start
requests of user 42 against an empty registry — the first is accepted, the
second is told processing is already active, and one entry remains. -/
theorem single_registration_per_owner_witness :
    (([] : Registry).lookup 42 = none)
    ∧ ([TaskKind.youtube, TaskKind.youtube] ≠ ([] : List TaskKind))
    ∧ (start_requests 42 [] [TaskKind.youtube, TaskKind.youtube]).1
        = [StartOutcome.accepted, StartOutcome.alreadyActive]
    ∧ (start_requests 42 [] [TaskKind.youtube, TaskKind.youtube]).2.countP
        (fun p => p.1 == 42) = 1 :=
  ⟨rfl, by decide,
    by
      have h := single_registration_per_owner 42 [] [TaskKind.youtube, TaskKind.youtube]
        rfl (by decide)
      simpa using h.1,
    (single_registration_per_owner 42 [] [TaskKind.youtube, TaskKind.youtube]
      rfl (by decide)).2.2⟩

/-! ### handle_video_message theorems -/

/-- C9 (claim, implicit): for every upload whose reported size exceeds
2 * 1024 * 1024 * 1024 bytes, handle_video_message replies that the file is
too large and returns before registering any processing task or downloading
the file: the registry is unchanged and no download starts, whatever the
warning check or registry contents. -/
theorem video_size_cap (authed hasVideo : Bool) (file_size : Nat)
    (warn : Bool) (reg : Registry) (uid : Nat)
    (ha : authed = true) (hv : hasVideo = true)
    (hs : MAX_FILE_SIZE < file_size) :
    handle_video_message authed hasVideo file_size warn reg uid
      = ([VideoReply.fileTooLarge], reg, false) := by
  subst ha
  subst hv
  simp [handle_video_message, hs]

/-- Witness for video_size_cap: a file one byte over the 2 GiB cap. -/
theorem video_size_cap_witness :
    MAX_FILE_SIZE < MAX_FILE_SIZE + 1
    ∧ handle_video_message true true (MAX_FILE_SIZE + 1) false [] 42
        = ([VideoReply.fileTooLarge], [], false) :=
  ⟨by omega,
    video_size_cap true true (MAX_FILE_SIZE + 1) false [] 42 rfl rfl (by omega)⟩

/-! ### Final-notice theorems -/

/-- C4 (amended claim): per job the completion notice is sent iff the
shutdown signal is not set at the completion check and the body neither
failed during setup nor was cancelled at the orchestrator level; the
cancellation notice is sent iff the orchestrator's own await was
cancelled; an error notice is sent iff the worker raised, setup failed, or
reset_context failed after the completion check.  Up to three notices can
be sent: three exactly on a worker exception with the shutdown signal
unset and a reset_context failure (error, completion, error); two exactly
on a worker exception with exactly one of shutdown-set or reset-failure,
or on a successful or worker-cancelled body with the shutdown signal unset
and a reset_context failure (completion, then error); zero exactly on a
successful or worker-cancelled body with the shutdown signal set and
reset_context succeeding; one in every remaining outcome. -/
theorem job_notices_characterization :
    ∀ (e : JobEvent) (s rc : Bool),
      (Notice.completion ∈ process_youtube_video_notices e s rc
        ↔ s = false ∧ e ≠ JobEvent.setupFailure ∧ e ≠ JobEvent.orchestratorCancelled)
      ∧ (Notice.errorNotice ∈ process_youtube_video_notices e s rc
        ↔ (e = JobEvent.workerError ∨ e = JobEvent.setupFailure
            ∨ (rc = true ∧ e ≠ JobEvent.setupFailure
                ∧ e ≠ JobEvent.orchestratorCancelled)))
      ∧ (Notice.cancellation ∈ process_youtube_video_notices e s rc
        ↔ e = JobEvent.orchestratorCancelled)
      ∧ (process_youtube_video_notices e s rc).length ≤ 3
      ∧ ((process_youtube_video_notices e s rc).length = 3
        ↔ e = JobEvent.workerError ∧ s = false ∧ rc = true)
      ∧ ((process_youtube_video_notices e s rc).length = 2
        ↔ ((e = JobEvent.workerError ∧ s = false ∧ rc = false)
            ∨ (e = JobEvent.workerError ∧ s = true ∧ rc = true)
            ∨ ((e = JobEvent.workerSuccess ∨ e = JobEvent.workerCancelled)
                ∧ s = false ∧ rc = true)))
      ∧ ((process_youtube_video_notices e s rc).length = 0
        ↔ ((e = JobEvent.workerSuccess ∨ e = JobEvent.workerCancelled)
            ∧ s = true ∧ rc = false)) := by
  intro e s rc
  cases e <;> cases s <;> cases rc <;> decide

/-- C4 counterexample: when the worker raises and the shutdown signal is
unset at the end of processing (reset_context succeeding), two notices are
sent — the error notice and then the completion notice — refuting both
"exactly one notice per job" and "on a worker exception the single notice
sent is the error notice". -/
theorem job_notices_counterexample :
    ¬ ((process_youtube_video_notices JobEvent.workerError false false).length = 1)
    ∧ process_youtube_video_notices JobEvent.workerError false false
        ≠ [Notice.errorNotice] := by
  decide

/-! ### Retry-loop theorems -/

theorem retry_loop_succ (ok : Nat → Bool) (a f : Nat) :
    retry_loop ok a (f + 1) =
      if ok a then [⟨a, true, none⟩]
      else if f = 0 then [⟨a, false, none⟩]
      else ⟨a, false, some ((1 / 2 : ℚ) * 2 ^ a)⟩ :: retry_loop ok (a + 1) f := by
  by_cases h : ok a <;> simp [retry_loop, attemptSend, h]

theorem retry_loop_length_le (ok : Nat → Bool) (fuel a : Nat) :
    (retry_loop ok a fuel).length ≤ fuel := by
  induction fuel generalizing a with
  | zero => simp [retry_loop]
  | succ f ih =>
    rw [retry_loop_succ]
    by_cases h : ok a
    · simp [h]
    · by_cases hf : f = 0
      · simp [h, hf]
      · simp [h, hf]
        have := ih (a + 1)
        omega

theorem retry_loop_length_pos (ok : Nat → Bool) (fuel a : Nat)
    (hf : fuel ≠ 0) : (retry_loop ok a fuel).length ≠ 0 := by
  cases fuel with
  | zero => exact absurd rfl hf
  | succ f =>
    rw [retry_loop_succ]
    by_cases h : ok a
    · simp [h]
    · by_cases hf2 : f = 0 <;> simp [h, hf2]

theorem retry_loop_all_fail_length (ok : Nat → Bool) (fuel a : Nat)
    (h : ∀ j, ok j = false) : (retry_loop ok a fuel).length = fuel := by
  induction fuel generalizing a with
  | zero => simp [retry_loop]
  | succ f ih =>
    rw [retry_loop_succ]
    by_cases hf : f = 0
    · simp [h a, hf]
    · simp [h a, hf, ih (a + 1)]

/-- The attempts of the retry loop are numbered consecutively from the
starting attempt. -/
theorem retry_loop_map_attempt (ok : Nat → Bool) (fuel a : Nat) :
    (retry_loop ok a fuel).map (fun r => r.attempt)
      = (List.range (retry_loop ok a fuel).length).map (fun k => a + k) := by
  induction fuel generalizing a with
  | zero => simp [retry_loop]
  | succ f ih =>
    rw [retry_loop_succ]
    have hr1 : List.range 1 = [0] := rfl
    by_cases h : ok a
    · simp [h, hr1]
    · by_cases hf : f = 0
      · simp [h, hf, hr1]
      · simp only [h, if_false, Bool.false_eq_true, hf, List.map_cons, List.length_cons]
        rw [ih (a + 1), List.range_succ_eq_map]
        simp [List.map_map, Function.comp]
        intro k hk
        omega

/-- Backoff pattern of the retry loop: every attempt but the last is
followed by a wait of (1/2) * 2 ^ attempt seconds — the base delay of half
a second doubling with each attempt — and the final attempt by none. -/
theorem retry_loop_map_wait (ok : Nat → Bool) (fuel a : Nat) (hf : fuel ≠ 0) :
    (retry_loop ok a fuel).map (fun r => r.wait)
      = ((List.range ((retry_loop ok a fuel).length - 1)).map
          (fun k => some ((1 / 2 : ℚ) * 2 ^ (a + k)))) ++ [none] := by
  induction fuel generalizing a with
  | zero => exact absurd rfl hf
  | succ f ih =>
    rw [retry_loop_succ]
    by_cases h : ok a
    · simp [h]
    · by_cases hf2 : f = 0
      · simp [h, hf2]
      · simp only [h, if_false, Bool.false_eq_true, hf2, List.map_cons, List.length_cons]
        rw [ih (a + 1) hf2]
        have hpos := retry_loop_length_pos ok f (a + 1) hf2
        obtain ⟨L, hL⟩ : ∃ L, (retry_loop ok (a + 1) f).length = L + 1 :=
          ⟨(retry_loop ok (a + 1) f).length - 1, by omega⟩
        rw [hL]
        simp only [Nat.add_sub_cancel, Nat.succ_sub_one]
        rw [List.range_succ_eq_map]
        simp [List.map_map, Function.comp]
        intro k hk
        omega

/-- C8 (claim): for every input text and any outcomes of the individual
send attempts, send_text_to_telegram returns normally (never raises): each
non-empty chunk is attempted, retried up to the fixed maximum of 3 attempts
with exponential backoff (a base delay of half a second doubling after each
failed non-final attempt), and when one chunk exhausts its retries the
remaining chunks are still attempted — the trace covers every chunk
regardless of the oracle. -/
theorem delivery_never_raises (client : Option Unit) (ok : Nat → Nat → Bool)
    (text : List Char) (hc : client = some ()) (ht : stripNonempty text = true) :
    ∃ tr, send_text_to_telegram client ok text = Except.ok tr
      ∧ tr.map Prod.fst
          = ((splitChunks text).enum.filter (fun p => stripNonempty p.2)).map Prod.fst
      ∧ ∀ pr ∈ tr,
          pr.2.length ≠ 0
          ∧ pr.2.length ≤ max_retries
          ∧ pr.2.map (fun r => r.attempt) = List.range pr.2.length
          ∧ pr.2.map (fun r => r.wait)
              = ((List.range (pr.2.length - 1)).map
                  (fun k => some ((1 / 2 : ℚ) * 2 ^ k))) ++ [none]
          ∧ ((∀ a, ok pr.1 a = false) → pr.2.length = max_retries) := by
  subst hc
  have hne : text.isEmpty = false := by
    cases text
    · simp [stripNonempty] at ht
    · rfl
  refine ⟨send_chunks ok (splitChunks text), ?_, ?_, ?_⟩
  · simp [send_text_to_telegram, hne, ht]
  · simp only [send_chunks, List.map_map]
    rfl
  · intro pr hpr
    simp only [send_chunks, List.mem_map] at hpr
    obtain ⟨q, hq, rfl⟩ := hpr
    refine ⟨retry_loop_length_pos _ _ _ (by decide),
      retry_loop_length_le _ _ _, ?_, ?_, ?_⟩
    · rw [retry_loop_map_attempt]
      simp
    · rw [retry_loop_map_wait _ _ _ (by decide)]
      simp
    · intro hall
      exact retry_loop_all_fail_length _ _ _ hall

/-- Witness for delivery_never_raises: a one-character text whose every
send attempt fails; the call still returns ok with a full three-attempt
trace for the single chunk. -/
theorem delivery_never_raises_witness :
    ((some () : Option Unit) = some ())
    ∧ stripNonempty ['a'] = true
    ∧ ∃ tr, send_text_to_telegram (some ()) (fun _ _ => false) ['a'] = Except.ok tr
        ∧ tr.map Prod.fst
            = ((splitChunks ['a']).enum.filter (fun p => stripNonempty p.2)).map Prod.fst
        ∧ ∀ pr ∈ tr,
            pr.2.length ≠ 0
            ∧ pr.2.length ≤ max_retries
            ∧ pr.2.map (fun r => r.attempt) = List.range pr.2.length
            ∧ pr.2.map (fun r => r.wait)
                = ((List.range (pr.2.length - 1)).map
                    (fun k => some ((1 / 2 : ℚ) * 2 ^ k))) ++ [none]
            ∧ ((∀ a, (fun _ _ => false : Nat → Nat → Bool) pr.1 a = false)
                → pr.2.length = max_retries) :=
  ⟨rfl, by decide,
    delivery_never_raises (some ()) (fun _ _ => false) ['a'] rfl (by decide)⟩

/-- C10 (claim): send_text_to_telegram is a silent no-op at its public
boundary for degenerate inputs: whenever the text is empty or
whitespace-only, or the client capability is None, it returns normally
without attempting any send. -/
theorem degenerate_send_noop (client : Option Unit) (ok : Nat → Nat → Bool)
    (text : List Char) (h : text.all isPySpace = true ∨ client = none) :
    send_text_to_telegram client ok text = Except.ok [] := by
  rcases h with h | h
  · have hs : stripNonempty text = false := stripNonempty_eq_false.2 h
    simp [send_text_to_telegram, hs]
  · subst h
    unfold send_text_to_telegram
    split
    · rfl
    · simp

/-- Witness for degenerate_send_noop: a whitespace-only text with a live
client. -/
theorem degenerate_send_noop_witness :
    ((([' '] : List Char).all isPySpace = true) ∨ (some () : Option Unit) = none)
    ∧ send_text_to_telegram (some ()) (fun _ _ => true) [' '] = Except.ok [] :=
  ⟨Or.inl (by decide),
    degenerate_send_noop (some ()) (fun _ _ => true) [' '] (Or.inl (by decide))⟩

end Trns
